import Mathlib

/-!
Verification of the terminal-emulation core of this repository.

The widget in `src/terminal.py` delegates grid/ANSI semantics to the external
`pyte` library (`pyte.HistoryScreen(120, 30, history=10000)` and `pyte.Stream`,
lines 25-26); that library's code is not part of the repository sources, so the
Screen Model and the Escape-Sequence Interpreter are modelled here from the
design document (sections 3, 4.2, 4.3).  Everything that lives in
`src/terminal.py` itself (the render projection `render_screen`, its snapshot
cache, the key encoder `keyPressEvent`, the reader loop `read_pty`, and the
resize clamping in `resizeEvent`) is embedded directly from that source.

Cells are modelled by their character content (a blank cell is a space); the
claims under study never inspect color or style attributes, and the source
projection `render_screen` reads only `char.data`.
-/

/-- Modelled from the spec (section 3, "Interpreter State"): the parser state of
the escape-sequence interpreter — ground / escape / control-sequence-collecting
(with its accumulation buffer) / osc-collecting.  The concrete automaton is not
in `src/` (it lives in the external `pyte.Stream`). -/
inductive ParserState where
  | ground : ParserState
  | escape : ParserState
  | csi : List Char → ParserState
  | osc : ParserState
deriving DecidableEq, Repr

/-- Modelled from the spec (section 3, "Screen Model"): a grid of cells with
`rows × cols` dimensions, a cursor clamped to the grid, a bounded scrollback
(oldest evicted first), and the persistent parser state.  The concrete model is
not in `src/` (it lives in the external `pyte.HistoryScreen`). -/
@[ext]
structure ScreenState where
  rows : Nat
  cols : Nat
  grid : List (List Char)
  cursorRow : Nat
  cursorCol : Nat
  scrollback : List (List Char)
  maxHistory : Nat
  parser : ParserState
deriving DecidableEq, Repr

/-- A row of blank cells. -/
def blankRow (cols : Nat) : List Char := List.replicate cols ' '

/-- Modelled from the spec (section 3): scrollback insertion respecting the
capacity bound — "insertion evicts the oldest entry when at capacity". -/
def pushHistory (maxH : Nat) (sb : List (List Char)) (line : List Char) :
    List (List Char) :=
  let sb2 := sb ++ [line]
  if maxH < sb2.length then sb2.drop (sb2.length - maxH) else sb2

/-- Modelled from the spec (section 4.2/4.3): line feed.  Below the last row the
cursor moves down; on the last row the grid scrolls, pushing the evicted top row
into scrollback and exposing a blank bottom row. -/
def lineFeed (s : ScreenState) : ScreenState :=
  if s.cursorRow + 1 < s.rows then { s with cursorRow := s.cursorRow + 1 }
  else
    { s with
      scrollback := pushHistory s.maxHistory s.scrollback (s.grid.headD []),
      grid := s.grid.tail ++ [blankRow s.cols] }

/-- The grid after writing character `c` at the cursor position. -/
def putCell (s : ScreenState) (c : Char) : List (List Char) :=
  s.grid.set s.cursorRow ((s.grid.getD s.cursorRow []).set s.cursorCol c)

/-- Modelled from the spec (section 4.2): printable character placement with
wrap at the column edge. -/
def putChar (s : ScreenState) (c : Char) : ScreenState :=
  if s.cursorCol + 1 < s.cols then
    { s with grid := putCell s c, cursorCol := s.cursorCol + 1 }
  else lineFeed { s with grid := putCell s c, cursorCol := 0 }

/-- Leading decimal number of a CSI parameter buffer (0 when it has none). -/
def leadingNum (buf : List Char) : Nat :=
  (buf.takeWhile Char.isDigit).foldl (fun a ch => a * 10 + (ch.toNat - 48)) 0

/-- A CSI count argument: absent or zero means 1. -/
def argDefault1 (buf : List Char) : Nat := max 1 (leadingNum buf)

/-- Modelled from the spec (section 4.2/4.3): dispatch of a completed control
sequence.  Cursor motion clamps and never errors; any unsupported final byte is
consumed and discarded. -/
def csiDispatch (s : ScreenState) (buf : List Char) (c : Char) : ScreenState :=
  if c = 'A' then { s with cursorRow := s.cursorRow - argDefault1 buf }
  else if c = 'B' then { s with cursorRow := min (s.rows - 1) (s.cursorRow + argDefault1 buf) }
  else if c = 'C' then { s with cursorCol := min (s.cols - 1) (s.cursorCol + argDefault1 buf) }
  else if c = 'D' then { s with cursorCol := s.cursorCol - argDefault1 buf }
  else if c = 'H' then
    let p1 := argDefault1 (buf.takeWhile (fun ch => ch ≠ ';'))
    let p2 := argDefault1 ((buf.dropWhile (fun ch => ch ≠ ';')).drop 1)
    { s with cursorRow := min (s.rows - 1) (p1 - 1), cursorCol := min (s.cols - 1) (p2 - 1) }
  else s

/-- Modelled from the spec (sections 4.2, 7): one interpreter step on one input
character.  Unrecognized or invalid bytes are discarded and parsing resumes at
the next byte; incomplete sequences stay buffered in the parser state. -/
def step (s : ScreenState) (c : Char) : ScreenState :=
  match s.parser with
  | ParserState.ground =>
      if c = '\x1b' then { s with parser := ParserState.escape }
      else if c = '\x0d' then { s with cursorCol := 0 }
      else if c = '\x0a' then lineFeed s
      else if c.toNat < 32 then s
      else putChar s c
  | ParserState.escape =>
      if c = '[' then { s with parser := ParserState.csi [] }
      else if c = ']' then { s with parser := ParserState.osc }
      else { s with parser := ParserState.ground }
  | ParserState.csi buf =>
      if 0x40 ≤ c.toNat ∧ c.toNat ≤ 0x7e then
        { csiDispatch s buf c with parser := ParserState.ground }
      else if 0x20 ≤ c.toNat ∧ c.toNat < 0x40 then
        { s with parser := ParserState.csi (buf ++ [c]) }
      else { s with parser := ParserState.ground }
  | ParserState.osc =>
      if c = '\x07' then { s with parser := ParserState.ground } else s

/-- Modelled from the spec (section 4.2): `feed` — pure mutation of the Screen
Model, consuming the whole chunk character by character; parser state persists
inside the state between calls (`self.stream.feed(data)` at
src/terminal.py:130 delegates to the external library). -/
def feed (s : ScreenState) (data : List Char) : ScreenState :=
  data.foldl step s

/-- A blank screen: all-blank grid, cursor at the origin, empty scrollback,
ground parser. -/
def initScreen (rows cols maxHistory : Nat) : ScreenState :=
  { rows := rows, cols := cols,
    grid := List.replicate rows (blankRow cols),
    cursorRow := 0, cursorCol := 0,
    scrollback := [], maxHistory := maxHistory,
    parser := ParserState.ground }

/-- The screen the program constructs: `pyte.HistoryScreen(120, 30,
history=10000)` (src/terminal.py:25) — 120 columns, 30 rows, 10000 lines of
scrollback. -/
def programScreen : ScreenState := initScreen 30 120 10000

/-- Well-formedness of a screen state: positive dimensions, cursor inside the
grid, a fully populated grid, and scrollback within its bound. -/
structure WF (s : ScreenState) : Prop where
  rowsPos : 0 < s.rows
  colsPos : 0 < s.cols
  curRow : s.cursorRow < s.rows
  curCol : s.cursorCol < s.cols
  gridLen : s.grid.length = s.rows
  rowLen : ∀ r ∈ s.grid, r.length = s.cols
  sbLen : s.scrollback.length ≤ s.maxHistory

/-- Scrollback insertion never exceeds the capacity bound. -/
theorem pushHistory_length_le (m : Nat) (sb : List (List Char)) (line : List Char) :
    (pushHistory m sb line).length ≤ m ∨ (pushHistory m sb line).length = sb.length + 1 := by
  unfold pushHistory
  by_cases h : m < (sb ++ [line]).length
  · left
    simp only [h, if_true, List.length_drop]
    omega
  · right
    simp only [h, if_false]
    simp

/-- Scrollback insertion keeps the length within the bound whenever the input
respected the bound. -/
theorem pushHistory_le_max (m : Nat) (sb : List (List Char)) (line : List Char) :
    (pushHistory m sb line).length ≤ m := by
  unfold pushHistory
  by_cases h : m < (sb ++ [line]).length
  · simp only [h, if_true, List.length_drop]
    omega
  · simp only [h, if_false]
    simp at h ⊢
    omega

/-- A state whose parser component alone changed is still well formed. -/
theorem wf_setParser {s : ScreenState} (h : WF s) (p : ParserState) :
    WF { s with parser := p } :=
  ⟨h.rowsPos, h.colsPos, h.curRow, h.curCol, h.gridLen, h.rowLen, h.sbLen⟩

/-- Line feed preserves well-formedness; in particular a scroll keeps the grid
fully populated and the scrollback within its bound. -/
theorem wf_lineFeed {s : ScreenState} (h : WF s) : WF (lineFeed s) := by
  unfold lineFeed
  by_cases hb : s.cursorRow + 1 < s.rows
  · rw [if_pos hb]
    exact ⟨h.rowsPos, h.colsPos, hb, h.curCol, h.gridLen, h.rowLen, h.sbLen⟩
  · rw [if_neg hb]
    refine ⟨h.rowsPos, h.colsPos, h.curRow, h.curCol, ?_, ?_, ?_⟩
    · have := h.rowsPos
      have := h.gridLen
      simp only [List.length_append, List.length_tail]
      simp
      omega
    · intro r hr
      rcases List.mem_append.mp hr with h1 | h2
      · exact h.rowLen r (List.mem_of_mem_tail h1)
      · simp only [List.mem_singleton] at h2
        subst h2
        simp [blankRow]
    · exact pushHistory_le_max _ _ _

/-- Writing a character at the cursor keeps every row at its width and the grid
at its height. -/
theorem putCell_len {s : ScreenState} (h : WF s) (c : Char) :
    (putCell s c).length = s.rows ∧ ∀ r ∈ putCell s c, r.length = s.cols := by
  constructor
  · simp [putCell, List.length_set, h.gridLen]
  · intro r hr
    rcases List.mem_or_eq_of_mem_set hr with h1 | h2
    · exact h.rowLen r h1
    · subst h2
      rw [List.length_set]
      have hc : s.cursorRow < s.grid.length := by
        rw [h.gridLen]
        exact h.curRow
      rw [List.getD_eq_getElem _ _ hc]
      exact h.rowLen _ (List.getElem_mem hc)

/-- Character placement preserves well-formedness, also when it wraps. -/
theorem wf_putChar {s : ScreenState} (h : WF s) (c : Char) : WF (putChar s c) := by
  unfold putChar
  obtain ⟨hgl, hrl⟩ := putCell_len h c
  by_cases hb : s.cursorCol + 1 < s.cols
  · rw [if_pos hb]
    exact ⟨h.rowsPos, h.colsPos, h.curRow, hb, hgl, hrl, h.sbLen⟩
  · rw [if_neg hb]
    exact wf_lineFeed ⟨h.rowsPos, h.colsPos, h.curRow, h.colsPos, hgl, hrl, h.sbLen⟩

/-- Dispatch of a completed control sequence preserves well-formedness: all
cursor motion clamps into the grid. -/
theorem wf_csiDispatch {s : ScreenState} (h : WF s) (buf : List Char) (c : Char) :
    WF (csiDispatch s buf c) := by
  unfold csiDispatch
  have hr1 : s.rows - 1 < s.rows := Nat.sub_lt h.rowsPos Nat.one_pos
  have hc1 : s.cols - 1 < s.cols := Nat.sub_lt h.colsPos Nat.one_pos
  split_ifs with h1 h2 h3 h4 h5
  · exact ⟨h.rowsPos, h.colsPos, Nat.lt_of_le_of_lt (Nat.sub_le _ _) h.curRow,
      h.curCol, h.gridLen, h.rowLen, h.sbLen⟩
  · exact ⟨h.rowsPos, h.colsPos, Nat.lt_of_le_of_lt (Nat.min_le_left _ _) hr1,
      h.curCol, h.gridLen, h.rowLen, h.sbLen⟩
  · exact ⟨h.rowsPos, h.colsPos, h.curRow,
      Nat.lt_of_le_of_lt (Nat.min_le_left _ _) hc1, h.gridLen, h.rowLen, h.sbLen⟩
  · exact ⟨h.rowsPos, h.colsPos, h.curRow,
      Nat.lt_of_le_of_lt (Nat.sub_le _ _) h.curCol, h.gridLen, h.rowLen, h.sbLen⟩
  · exact ⟨h.rowsPos, h.colsPos, Nat.lt_of_le_of_lt (Nat.min_le_left _ _) hr1,
      Nat.lt_of_le_of_lt (Nat.min_le_left _ _) hc1, h.gridLen, h.rowLen, h.sbLen⟩
  · exact h

/-- One interpreter step preserves well-formedness, for every input character:
printable bytes, control bytes, sequence bytes, and invalid bytes alike. -/
theorem wf_step {s : ScreenState} (h : WF s) (c : Char) : WF (step s c) := by
  cases hp : s.parser with
  | ground =>
      simp only [step, hp]
      split_ifs with h1 h2 h3 h4
      · exact wf_setParser h _
      · exact ⟨h.rowsPos, h.colsPos, h.curRow, h.colsPos, h.gridLen, h.rowLen, h.sbLen⟩
      · exact wf_lineFeed h
      · exact h
      · exact wf_putChar h c
  | escape =>
      simp only [step, hp]
      split_ifs with h1 h2
      · exact wf_setParser h _
      · exact wf_setParser h _
      · exact wf_setParser h _
  | csi buf =>
      simp only [step, hp]
      split_ifs with h1 h2
      · exact wf_setParser (wf_csiDispatch h buf c) _
      · exact wf_setParser h _
      · exact wf_setParser h _
  | osc =>
      simp only [step, hp]
      split_ifs with h1
      · exact wf_setParser h _
      · exact h

/-- Feeding any chunk preserves well-formedness. -/
theorem wf_feed {s : ScreenState} (h : WF s) (data : List Char) : WF (feed s data) := by
  induction data generalizing s with
  | nil => exact h
  | cons c cs ih =>
      have h2 := ih (wf_step h c)
      simpa [feed, List.foldl_cons] using h2

/-- A blank screen of positive dimensions is well formed. -/
theorem wf_initScreen (rows cols maxH : Nat) (hr : 0 < rows) (hc : 0 < cols) :
    WF (initScreen rows cols maxH) := by
  refine ⟨hr, hc, hr, hc, ?_, ?_, ?_⟩
  · simp [initScreen]
  · intro r hrr
    simp only [initScreen] at hrr
    rw [List.eq_of_mem_replicate hrr]
    simp [blankRow, initScreen]
  · simp [initScreen]

/-- Line feed never changes the dimensions or the scrollback capacity. -/
theorem lineFeed_fixed (s : ScreenState) :
    (lineFeed s).rows = s.rows ∧ (lineFeed s).cols = s.cols ∧
    (lineFeed s).maxHistory = s.maxHistory := by
  unfold lineFeed
  split <;> exact ⟨rfl, rfl, rfl⟩

/-- Character placement never changes the dimensions or the scrollback
capacity. -/
theorem putChar_fixed (s : ScreenState) (c : Char) :
    (putChar s c).rows = s.rows ∧ (putChar s c).cols = s.cols ∧
    (putChar s c).maxHistory = s.maxHistory := by
  unfold putChar
  split
  · exact ⟨rfl, rfl, rfl⟩
  · exact lineFeed_fixed _

/-- Sequence dispatch never changes the dimensions or the scrollback
capacity. -/
theorem csiDispatch_fixed (s : ScreenState) (buf : List Char) (c : Char) :
    (csiDispatch s buf c).rows = s.rows ∧ (csiDispatch s buf c).cols = s.cols ∧
    (csiDispatch s buf c).maxHistory = s.maxHistory := by
  unfold csiDispatch
  split_ifs <;> exact ⟨rfl, rfl, rfl⟩

/-- One interpreter step never changes the dimensions or the scrollback
capacity. -/
theorem step_fixed (s : ScreenState) (c : Char) :
    (step s c).rows = s.rows ∧ (step s c).cols = s.cols ∧
    (step s c).maxHistory = s.maxHistory := by
  cases hp : s.parser with
  | ground =>
      simp only [step, hp]
      split_ifs
      · exact ⟨rfl, rfl, rfl⟩
      · exact ⟨rfl, rfl, rfl⟩
      · exact lineFeed_fixed _
      · exact ⟨rfl, rfl, rfl⟩
      · exact putChar_fixed _ _
  | escape =>
      simp only [step, hp]
      split_ifs <;> exact ⟨rfl, rfl, rfl⟩
  | csi buf =>
      simp only [step, hp]
      split_ifs
      · exact csiDispatch_fixed _ _ _
      · exact ⟨rfl, rfl, rfl⟩
      · exact ⟨rfl, rfl, rfl⟩
  | osc =>
      simp only [step, hp]
      split_ifs <;> exact ⟨rfl, rfl, rfl⟩

/-- Feeding never changes the dimensions or the scrollback capacity. -/
theorem feed_fixed (s : ScreenState) (data : List Char) :
    (feed s data).rows = s.rows ∧ (feed s data).cols = s.cols ∧
    (feed s data).maxHistory = s.maxHistory := by
  induction data generalizing s with
  | nil => exact ⟨rfl, rfl, rfl⟩
  | cons c cs ih =>
      have h1 := ih (step s c)
      have h2 := step_fixed s c
      have he : feed s (c :: cs) = feed (step s c) cs := rfl
      rw [he]
      exact ⟨h1.1.trans h2.1, (h1.2.1).trans h2.2.1, (h1.2.2).trans h2.2.2⟩

/-- Feeding a concatenation equals feeding the pieces one after the other:
interpreter state persists between the two calls. -/
theorem feed_append (s : ScreenState) (a b : List Char) :
    feed s (a ++ b) = feed (feed s a) b := by
  simp [feed, List.foldl_append]

/-- One `process_output` delivery per chunk (src/terminal.py:129-131): each
chunk is handed to the interpreter by its own feed call, in order. -/
def feedChunks (s : ScreenState) (chunks : List (List Char)) : ScreenState :=
  chunks.foldl feed s

/-- C1: Chunk-boundary invariance of the interpreter — feeding the chunks one
per feed call, in order, yields the same Screen Model as feeding the whole
sequence in a single feed call; interpreter state persists across calls, and a
sequence still incomplete at the end of a chunk is only buffered, acted upon
once fully collected. -/
theorem feed_chunk_boundary_invariance (s : ScreenState) :
    (∀ chunks : List (List Char), feedChunks s chunks = feed s chunks.flatten)
    ∧ (s.parser = ParserState.ground →
        (feed s ['\x1b', '[']).grid = s.grid ∧
        (feed s ['\x1b', '[']).cursorRow = s.cursorRow ∧
        (feed s ['\x1b', '[']).scrollback = s.scrollback ∧
        (feed s ['\x1b', '[']).parser = ParserState.csi []) := by
  constructor
  · intro chunks
    induction chunks generalizing s with
    | nil => rfl
    | cons a l ih =>
        have h1 : feedChunks s (a :: l) = feedChunks (feed s a) l := rfl
        rw [h1, ih, List.flatten_cons, feed_append]
  · intro hparser
    have e1 : step s '\x1b' = { s with parser := ParserState.escape } := by
      simp [step, hparser]
    have e2 : step { s with parser := ParserState.escape } '[' =
        { s with parser := ParserState.csi [] } := by
      simp [step]
    have e3 : feed s ['\x1b', '['] = { s with parser := ParserState.csi [] } := by
      show step (step s '\x1b') '[' = _
      rw [e1, e2]
    rw [e3]
    exact ⟨rfl, rfl, rfl, rfl⟩

/-- Witness for C1: two single-character chunks equal one two-character feed on
the program's screen, and an incomplete CSI prefix is only buffered. -/
theorem feed_chunk_boundary_invariance_witness :
    feedChunks programScreen [['H'], ['i']] = feed programScreen ['H', 'i'] ∧
    (feed programScreen ['\x1b', '[']).parser = ParserState.csi [] := by
  constructor
  · have h := (feed_chunk_boundary_invariance programScreen).1 [['H'], ['i']]
    simpa using h
  · exact ((feed_chunk_boundary_invariance programScreen).2 rfl).2.2.2

/-- C2: Cursor clamp invariant — after any sequence of feed operations on a
well-formed screen the cursor stays inside `[0, rows) × [0, cols)`, and feeding
cursor-up `ESC [ A` with the cursor already at row 0 leaves it at row 0, with
no underflow and no error. -/
theorem cursor_clamp_invariant (s : ScreenState) (h : WF s) :
    (∀ data : List Char,
        (feed s data).cursorRow < s.rows ∧ (feed s data).cursorCol < s.cols)
    ∧ (s.parser = ParserState.ground → s.cursorRow = 0 →
        (feed s ['\x1b', '[', 'A']).cursorRow = 0) := by
  constructor
  · intro data
    have hw := wf_feed h data
    have hf := feed_fixed s data
    have h1 := hw.curRow
    have h2 := hw.curCol
    rw [hf.1] at h1
    rw [hf.2.1] at h2
    exact ⟨h1, h2⟩
  · intro hparser hrow
    show (step (step (step s '\x1b') '[') 'A').cursorRow = 0
    simp [step, hparser, csiDispatch, argDefault1, leadingNum, hrow]

/-- Witness for C2: on the program's 30×120 screen, feeding a burst of cursor
motion keeps the cursor in bounds, and `ESC [ A` at row 0 stays at row 0. -/
theorem cursor_clamp_invariant_witness :
    ((feed programScreen ['\x1b', '[', 'A', '\x1b', '[', 'D']).cursorRow < 30 ∧
      (feed programScreen ['\x1b', '[', 'A', '\x1b', '[', 'D']).cursorCol < 120) ∧
    (feed programScreen ['\x1b', '[', 'A']).cursorRow = 0 := by
  have hwf : WF programScreen := wf_initScreen 30 120 10000 (by decide) (by decide)
  exact ⟨(cursor_clamp_invariant programScreen hwf).1 _,
    (cursor_clamp_invariant programScreen hwf).2 rfl rfl⟩

/-- C3: Scrollback bound invariant — after any sequence of feed operations the
scrollback never exceeds the configured maximum (10000 lines in this program),
and an insertion at capacity evicts the oldest entry first. -/
theorem scrollback_bound_invariant (s : ScreenState) (h : WF s) :
    (∀ data : List Char, (feed s data).scrollback.length ≤ s.maxHistory)
    ∧ (∀ line : List Char, s.scrollback.length = s.maxHistory → 0 < s.maxHistory →
        pushHistory s.maxHistory s.scrollback line = s.scrollback.drop 1 ++ [line]) := by
  constructor
  · intro data
    have hw := (wf_feed h data).sbLen
    rw [(feed_fixed s data).2.2] at hw
    exact hw
  · intro line hlen hpos
    unfold pushHistory
    have hc : s.maxHistory < (s.scrollback ++ [line]).length := by
      simp [hlen]
    rw [if_pos hc]
    have h1 : (s.scrollback ++ [line]).length - s.maxHistory = 1 := by
      simp [hlen]
    rw [h1, List.drop_append_of_le_length (by omega)]

/-- Witness for C3: the program screen keeps scrollback within 10000 after a
feed, and a two-line scrollback at capacity 2 evicts its oldest line. -/
theorem scrollback_bound_invariant_witness :
    (feed programScreen ['\x0a']).scrollback.length ≤ 10000 ∧
    pushHistory 2 [['a'], ['b']] ['c'] = [['b'], ['c']] := by
  constructor
  · exact (scrollback_bound_invariant programScreen
      (wf_initScreen 30 120 10000 (by decide) (by decide))).1 ['\x0a']
  · have hwf : WF { initScreen 1 1 2 with scrollback := [['a'], ['b']] } := by
      refine ⟨by decide, by decide, by decide, by decide, by decide, ?_, by decide⟩
      intro r hr
      simp only [initScreen] at hr
      rw [List.eq_of_mem_replicate hr]
      decide
    have h := (scrollback_bound_invariant _ hwf).2 ['c'] rfl (by decide)
    simpa using h

/-- C8: Interpreter totality on malformed input — every byte sequence,
including unrecognized, incomplete, or invalid escape sequences, leaves the
model well formed (the total function `feed` never fails), and an invalid byte
inside a control sequence discards the sequence and resynchronizes the parser
without touching the grid. -/
theorem feed_total_on_malformed (s : ScreenState) (h : WF s) :
    (∀ data : List Char, WF (feed s data))
    ∧ (∀ (buf : List Char) (c : Char), s.parser = ParserState.csi buf →
        c.toNat < 0x20 →
        (step s c).parser = ParserState.ground ∧ (step s c).grid = s.grid) := by
  constructor
  · exact fun data => wf_feed h data
  · intro buf c hp hc
    have hn1 : ¬(0x40 ≤ c.toNat ∧ c.toNat ≤ 0x7e) := by omega
    have hn2 : ¬(0x20 ≤ c.toNat ∧ c.toNat < 0x40) := by omega
    simp [step, hp, hn1, hn2]

/-- Witness for C8: a malformed stream (lone escape, invalid CSI byte, garbage)
leaves the program screen well formed, and a control byte inside a CSI
resynchronizes to ground. -/
theorem feed_total_on_malformed_witness :
    WF (feed programScreen ['\x1b', '[', '\x01', '\x1b', 'q', '\xff']) ∧
    (step { programScreen with parser := ParserState.csi ['5'] } '\x01').parser =
      ParserState.ground := by
  have hwf : WF programScreen := wf_initScreen 30 120 10000 (by decide) (by decide)
  constructor
  · exact (feed_total_on_malformed programScreen hwf).1 _
  · exact ((feed_total_on_malformed _ (wf_setParser hwf _)).2 ['5'] '\x01' rfl
      (by decide)).1

/-- Embedded from src/terminal.py:143-144 and 148-149: a row renders as its
cell contents (`char.data or " "`, a blank cell being a space) with trailing
blanks stripped (`line.rstrip()`). -/
def rstripRow (row : List Char) : List Char :=
  (row.reverse.dropWhile (fun c => c == ' ')).reverse

/-- Embedded from src/terminal.py:151-153: the `while lines and not lines[-1]:
lines.pop()` loop removing trailing empty rendered lines. -/
def dropTrailingEmpty (ls : List (List Char)) : List (List Char) :=
  (ls.reverse.dropWhile (fun l => l.isEmpty)).reverse

/-- Embedded from `render_screen` (src/terminal.py:138-153): scrollback rows
(oldest first, `self.screen.history.top`), then the current grid rows, each
right-stripped, with trailing empty lines removed. -/
def renderLines (s : ScreenState) : List (List Char) :=
  dropTrailingEmpty (s.scrollback.map rstripRow ++ s.grid.map rstripRow)

/-- Embedded from src/terminal.py:155: `new_text = "\n".join(lines)`. -/
def renderScreen (s : ScreenState) : String :=
  String.intercalate "\n" ((renderLines s).map (fun l => String.mk l))

/-- The head surviving a `dropWhile` does not satisfy the predicate. -/
theorem head_dropWhile_false {α : Type} (p : α → Bool) (l : List α) (a : α)
    (h : (l.dropWhile p).head? = some a) : p a = false := by
  induction l with
  | nil => simp [List.dropWhile] at h
  | cons x xs ih =>
      rw [List.dropWhile_cons] at h
      by_cases hx : p x = true
      · rw [if_pos hx] at h
        exact ih h
      · rw [if_neg hx] at h
        simp only [List.head?_cons, Option.some_inj] at h
        subst h
        simpa using hx

/-- C4: Render projection — the projector returns scrollback rows (oldest
first) followed by the grid rows, right-trimmed per row and with trailing
all-blank rows removed from the end (the result is a prefix of the untrimmed
row list, and no rendered row ends in a blank); feeding "Hello\r\n" then
"World" into a blank 5×80 screen projects to "Hello\nWorld". -/
theorem render_projection :
    renderScreen (feed (feed (initScreen 5 80 10000) "Hello\r\n".data) "World".data)
      = "Hello\nWorld"
    ∧ (∀ ls : List (List Char), ∃ k, dropTrailingEmpty ls = ls.take k)
    ∧ (∀ (row : List Char) (c : Char), (rstripRow row).getLast? = some c → c ≠ ' ') := by
  refine ⟨by decide, ?_, ?_⟩
  · intro ls
    have he : dropTrailingEmpty ls = List.rdropWhile (fun l => l.isEmpty) ls := rfl
    refine ⟨(dropTrailingEmpty ls).length, ?_⟩
    rw [he]
    exact List.prefix_iff_eq_take.mp (List.rdropWhile_prefix _ _)
  · intro row c h
    rw [rstripRow, List.getLast?_reverse] at h
    have := head_dropWhile_false _ _ _ h
    simpa using this

/-- Witness for C4: the trailing-blank-row trim is a prefix on a concrete list,
and the concrete row "a " right-trims to a row not ending in a blank. -/
theorem render_projection_witness :
    (∃ k, dropTrailingEmpty [['a'], [], []] = [['a'], [], []].take k) ∧
    ('a' : Char) ≠ ' ' :=
  ⟨render_projection.2.1 [['a'], [], []],
    render_projection.2.2 ['a', ' '] 'a' (by decide)⟩

/-- The widget-side state of `render_screen`: the screen plus the cached
previous snapshot `self._last_text` (src/terminal.py:29). -/
structure WidgetState where
  screen : ScreenState
  lastText : String
deriving DecidableEq, Repr

/-- Embedded from `render_screen` (src/terminal.py:155-167): compute the new
snapshot; only when it differs from the cached `_last_text` is the cache
replaced and a display update issued (`setPlainText`).  The result is the
updated widget state, whether a display update was issued, and the snapshot
text shown. -/
def renderStep (w : WidgetState) : WidgetState × Bool × String :=
  if renderScreen w.screen ≠ w.lastText then
    ({ w with lastText := renderScreen w.screen }, true, renderScreen w.screen)
  else (w, false, w.lastText)

/-- `render_screen` never mutates the screen model. -/
theorem renderStep_screen (w : WidgetState) : (renderStep w).1.screen = w.screen := by
  unfold renderStep
  split <;> rfl

/-- After a `render_screen` call the cache holds exactly the screen's current
projection. -/
theorem renderStep_lastText (w : WidgetState) :
    (renderStep w).1.lastText = renderScreen w.screen := by
  unfold renderStep
  split
  · rfl
  · next h =>
      push_neg at h
      exact h.symm

/-- The snapshot text a `render_screen` call produces is the cache it leaves
behind. -/
theorem renderStep_text (w : WidgetState) :
    (renderStep w).2.2 = (renderStep w).1.lastText := by
  unfold renderStep
  split <;> rfl

/-- When the projection equals the cache, `render_screen` issues no display
update and returns the cached snapshot unchanged. -/
theorem renderStep_noChange (v : WidgetState) (h : renderScreen v.screen = v.lastText) :
    renderStep v = (v, false, v.lastText) := by
  unfold renderStep
  rw [if_neg (by simp [h])]

/-- C5: Idempotent snapshot with change detection — a second `render_screen`
call with no intervening screen mutation returns byte-identical text, issues no
display update ("no visible change"), and leaves the widget state (including
the cached snapshot) unchanged. -/
theorem snapshot_idempotent (w : WidgetState) :
    (renderStep (renderStep w).1).2.2 = (renderStep w).2.2 ∧
    (renderStep (renderStep w).1).2.1 = false ∧
    (renderStep (renderStep w).1).1 = (renderStep w).1 := by
  have hs := renderStep_screen w
  have hl := renderStep_lastText w
  have h2 := renderStep_noChange (renderStep w).1 (by rw [hs]; exact hl.symm)
  refine ⟨?_, ?_, ?_⟩
  · rw [h2, renderStep_text w]
  · rw [h2]
  · rw [h2]

/-- Qt6 key code for Return. -/
def keyReturn : Nat := 0x01000004
/-- Qt6 key code for Enter (keypad). -/
def keyEnter : Nat := 0x01000005
/-- Qt6 key code for Backspace. -/
def keyBackspace : Nat := 0x01000003
/-- Qt6 key code for Tab. -/
def keyTab : Nat := 0x01000001
/-- Qt6 key code for Escape. -/
def keyEscape : Nat := 0x01000000
/-- Qt6 key code for the up arrow. -/
def keyUp : Nat := 0x01000013
/-- Qt6 key code for the down arrow. -/
def keyDown : Nat := 0x01000015
/-- Qt6 key code for the right arrow. -/
def keyRight : Nat := 0x01000014
/-- Qt6 key code for the left arrow. -/
def keyLeft : Nat := 0x01000012
/-- Qt6 key code for Home. -/
def keyHome : Nat := 0x01000010
/-- Qt6 key code for the End key. -/
def keyEnd : Nat := 0x01000011
/-- Qt6 key code for Delete. -/
def keyDelete : Nat := 0x01000007
/-- Qt6 key code for Page Up. -/
def keyPageUp : Nat := 0x01000016
/-- Qt6 key code for Page Down. -/
def keyPageDown : Nat := 0x01000017
/-- Qt6 key code for the letter A. -/
def keyA : Nat := 0x41
/-- Qt6 key code for the letter C. -/
def keyC : Nat := 0x43
/-- Qt6 key code for the letter D. -/
def keyD : Nat := 0x44
/-- Qt6 key code for the letter L. -/
def keyL : Nat := 0x4c
/-- Qt6 key code for the letter V. -/
def keyV : Nat := 0x56
/-- Qt6 key code for the letter Z. -/
def keyZ : Nat := 0x5a
/-- Qt6 Control modifier flag. -/
def ctrlMod : Nat := 0x04000000
/-- Qt6 Shift modifier flag. -/
def shiftMod : Nat := 0x02000000

/-- What a key press makes the widget do: write bytes to the PTY, copy the
selection, paste the clipboard, or nothing. -/
inductive KeyAction where
  | writePty : String → KeyAction
  | copySel : KeyAction
  | pasteClip : KeyAction
  | noop : KeyAction
deriving DecidableEq, Repr

/-- Embedded from `keyPressEvent` (src/terminal.py:177-229): the full decision
chain — Ctrl+Shift C/V copy and paste, then the dedicated key table, then the
Control-modifier table (explicit Ctrl+C/D/Z/L before the generic
`chr(key - Key_A + 1)` rule), then literal text passthrough, else nothing. -/
def keyPressEvent (key modifiers : Nat) (text : String) : KeyAction :=
  if modifiers = ctrlMod + shiftMod ∧ key = keyC then KeyAction.copySel
  else if modifiers = ctrlMod + shiftMod ∧ key = keyV then KeyAction.pasteClip
  else if key = keyReturn ∨ key = keyEnter then KeyAction.writePty "\r"
  else if key = keyBackspace then KeyAction.writePty "\x7f"
  else if key = keyTab then KeyAction.writePty "\t"
  else if key = keyEscape then KeyAction.writePty "\x1b"
  else if key = keyUp then KeyAction.writePty "\x1b[A"
  else if key = keyDown then KeyAction.writePty "\x1b[B"
  else if key = keyRight then KeyAction.writePty "\x1b[C"
  else if key = keyLeft then KeyAction.writePty "\x1b[D"
  else if key = keyHome then KeyAction.writePty "\x1b[H"
  else if key = keyEnd then KeyAction.writePty "\x1b[F"
  else if key = keyDelete then KeyAction.writePty "\x1b[3~"
  else if key = keyPageUp then KeyAction.writePty "\x1b[5~"
  else if key = keyPageDown then KeyAction.writePty "\x1b[6~"
  else if modifiers = ctrlMod then
    if key = keyC then KeyAction.writePty "\x03"
    else if key = keyD then KeyAction.writePty "\x04"
    else if key = keyZ then KeyAction.writePty "\x1a"
    else if key = keyL then KeyAction.writePty "\x0c"
    else if keyA ≤ key ∧ key ≤ keyZ then
      KeyAction.writePty (String.mk [Char.ofNat (key - keyA + 1)])
    else KeyAction.noop
  else if text ≠ "" then KeyAction.writePty text
  else KeyAction.noop

/-- The keys the encoder maps through its dedicated table. -/
def specialKeys : List Nat :=
  [keyReturn, keyEnter, keyBackspace, keyTab, keyEscape, keyUp, keyDown,
   keyRight, keyLeft, keyHome, keyEnd, keyDelete, keyPageUp, keyPageDown]

/-- C6: Key encoder mapping — arrows map to `ESC [ A/B/C/D`, Enter to CR,
Backspace to 0x7f, Tab to TAB, Escape to ESC, Delete/Home/End/PageUp/PageDown
to their standard CSI sequences (all irrespective of modifiers), Ctrl+letter to
`letter - A + 1` with Ctrl+C/D/Z/L mapped by their explicit branches (Ctrl+C
yields exactly 0x03), other literal text passes through as its raw contents,
and an unmapped key with no literal text produces no output. -/
theorem key_encoder_mapping :
    (∀ m t, keyPressEvent keyUp m t = KeyAction.writePty "\x1b[A")
    ∧ (∀ m t, keyPressEvent keyDown m t = KeyAction.writePty "\x1b[B")
    ∧ (∀ m t, keyPressEvent keyRight m t = KeyAction.writePty "\x1b[C")
    ∧ (∀ m t, keyPressEvent keyLeft m t = KeyAction.writePty "\x1b[D")
    ∧ (∀ m t, keyPressEvent keyReturn m t = KeyAction.writePty "\r")
    ∧ (∀ m t, keyPressEvent keyEnter m t = KeyAction.writePty "\r")
    ∧ (∀ m t, keyPressEvent keyBackspace m t = KeyAction.writePty "\x7f")
    ∧ (∀ m t, keyPressEvent keyTab m t = KeyAction.writePty "\t")
    ∧ (∀ m t, keyPressEvent keyEscape m t = KeyAction.writePty "\x1b")
    ∧ (∀ m t, keyPressEvent keyDelete m t = KeyAction.writePty "\x1b[3~")
    ∧ (∀ m t, keyPressEvent keyHome m t = KeyAction.writePty "\x1b[H")
    ∧ (∀ m t, keyPressEvent keyEnd m t = KeyAction.writePty "\x1b[F")
    ∧ (∀ m t, keyPressEvent keyPageUp m t = KeyAction.writePty "\x1b[5~")
    ∧ (∀ m t, keyPressEvent keyPageDown m t = KeyAction.writePty "\x1b[6~")
    ∧ (∀ t, keyPressEvent keyC ctrlMod t = KeyAction.writePty "\x03")
    ∧ (∀ t, keyPressEvent keyD ctrlMod t = KeyAction.writePty "\x04")
    ∧ (∀ t, keyPressEvent keyZ ctrlMod t = KeyAction.writePty "\x1a")
    ∧ (∀ t, keyPressEvent keyL ctrlMod t = KeyAction.writePty "\x0c")
    ∧ (∀ key t, keyA ≤ key → key ≤ keyZ → keyPressEvent key ctrlMod t
        = KeyAction.writePty (String.mk [Char.ofNat (key - keyA + 1)]))
    ∧ (∀ key m t, key ∉ specialKeys → m ≠ ctrlMod →
        ¬(m = ctrlMod + shiftMod ∧ (key = keyC ∨ key = keyV)) → t ≠ "" →
        keyPressEvent key m t = KeyAction.writePty t)
    ∧ (∀ key m, key ∉ specialKeys → m ≠ ctrlMod →
        ¬(m = ctrlMod + shiftMod ∧ (key = keyC ∨ key = keyV)) →
        keyPressEvent key m "" = KeyAction.noop) := by
  refine ⟨?_, ?_, ?_, ?_, ?_, ?_, ?_, ?_, ?_, ?_, ?_, ?_, ?_, ?_, ?_, ?_, ?_, ?_,
    ?_, ?_, ?_⟩
  all_goals try (intros; simp [keyPressEvent, keyReturn, keyEnter, keyBackspace,
    keyTab, keyEscape, keyUp, keyDown, keyRight, keyLeft, keyHome, keyEnd,
    keyDelete, keyPageUp, keyPageDown, keyA, keyC, keyD, keyL, keyV, keyZ,
    ctrlMod, shiftMod]; done)
  · intro key t h1 h2
    simp only [keyA, keyZ] at h1 h2
    interval_cases key <;> rfl
  · intro key m t hks hm hcs ht
    simp only [specialKeys, List.mem_cons, List.not_mem_nil, or_false, not_or] at hks
    obtain ⟨n1, n2, n3, n4, n5, n6, n7, n8, n9, n10, n11, n12, n13, n14⟩ := hks
    have hc1 : ¬(m = ctrlMod + shiftMod ∧ key = keyC) := fun h => hcs ⟨h.1, Or.inl h.2⟩
    have hc2 : ¬(m = ctrlMod + shiftMod ∧ key = keyV) := fun h => hcs ⟨h.1, Or.inr h.2⟩
    simp [keyPressEvent, n1, n2, n3, n4, n5, n6, n7, n8, n9, n10, n11, n12, n13, n14,
      hc1, hc2, hm, ht]
  · intro key m hks hm hcs
    simp only [specialKeys, List.mem_cons, List.not_mem_nil, or_false, not_or] at hks
    obtain ⟨n1, n2, n3, n4, n5, n6, n7, n8, n9, n10, n11, n12, n13, n14⟩ := hks
    have hc1 : ¬(m = ctrlMod + shiftMod ∧ key = keyC) := fun h => hcs ⟨h.1, Or.inl h.2⟩
    have hc2 : ¬(m = ctrlMod + shiftMod ∧ key = keyV) := fun h => hcs ⟨h.1, Or.inr h.2⟩
    simp [keyPressEvent, n1, n2, n3, n4, n5, n6, n7, n8, n9, n10, n11, n12, n13, n14,
      hc1, hc2, hm]

/-- Witness for C6: Ctrl+B encodes to 0x02 by the generic rule, plain text on
an unmapped key passes through, and an unmapped key without text is silent. -/
theorem key_encoder_mapping_witness :
    keyPressEvent 0x42 ctrlMod "" = KeyAction.writePty (String.mk [Char.ofNat 2]) ∧
    keyPressEvent 0x58 0 "x" = KeyAction.writePty "x" ∧
    keyPressEvent 0x58 0 "" = KeyAction.noop := by
  obtain ⟨-, -, -, -, -, -, -, -, -, -, -, -, -, -, -, -, -, -, hGen, hPass, hNone⟩ :=
    key_encoder_mapping
  exact ⟨hGen 0x42 "" (by decide) (by decide),
    hPass 0x58 0 "x" (by decide) (by decide) (by decide) (by decide),
    hNone 0x58 0 (by decide) (by decide) (by decide)⟩

/-- One row refitted to a new width: columns beyond the new column count are
truncated, new cells are blank. -/
def fitRow (newCols : Nat) (row : List Char) : List Char :=
  row.take newCols ++ List.replicate (newCols - row.length) ' '

/-- Modelled from the spec (section 4.3): `resize` reinterprets the grid as a
new `rows × cols` array — rows beyond the new row count are discarded (not
moved to scrollback), columns truncated, new cells blank, the cursor clamped to
the new bounds, and the scrollback untouched.  The concrete implementation is
the external `screen.resize(rows, cols)` called from `resizeEvent`
(src/terminal.py:244), not part of `src/`. -/
def resizeScreen (s : ScreenState) (newRows newCols : Nat) : ScreenState :=
  { s with
    rows := newRows,
    cols := newCols,
    grid := (s.grid.take newRows ++
      List.replicate (newRows - s.grid.length) (blankRow newCols)).map (fitRow newCols),
    cursorRow := min s.cursorRow (newRows - 1),
    cursorCol := min s.cursorCol (newCols - 1) }

/-- Refitting a row to its own width is the identity. -/
theorem fitRow_eq_self (row : List Char) (n : Nat) (h : row.length = n) :
    fitRow n row = row := by
  subst h
  simp [fitRow]

/-- Widening a row and then narrowing it back restores the row. -/
theorem fitRow_round (row : List Char) (cols c : Nat) (hlen : row.length = cols)
    (hc : cols ≤ c) : fitRow cols (fitRow c row) = row := by
  have h1 : fitRow c row = row ++ List.replicate (c - cols) ' ' := by
    unfold fitRow
    rw [List.take_of_length_le (by omega), hlen]
  rw [h1]
  unfold fitRow
  have h2 : (row ++ List.replicate (c - cols) ' ').length = c := by
    simp
    omega
  rw [h2]
  have h3 : cols - c = 0 := by omega
  rw [h3, List.take_append_of_le_length (by omega), List.take_of_length_le (by omega)]
  simp

/-- C7: Resize round trip preserves content — growing a well-formed screen to
at least its dimensions in both axes and shrinking back, with no intervening
writes, restores the original state exactly; every resize leaves the scrollback
untouched (discarded rows never reach it), and the cursor is clamped to the new
bounds. -/
theorem resize_round_trip :
    (∀ (s : ScreenState) (r c : Nat), WF s → s.rows ≤ r → s.cols ≤ c →
        resizeScreen (resizeScreen s r c) s.rows s.cols = s)
    ∧ (∀ (s : ScreenState) (r c : Nat), (resizeScreen s r c).scrollback = s.scrollback)
    ∧ (∀ (s : ScreenState) (r c : Nat), 0 < r → 0 < c →
        (resizeScreen s r c).cursorRow < r ∧ (resizeScreen s r c).cursorCol < c) := by
  refine ⟨?_, ?_, ?_⟩
  · intro s r c hwf hr hc
    have hrows := hwf.rowsPos
    have hglen := hwf.gridLen
    have hcr := hwf.curRow
    have hcc := hwf.curCol
    have h1 : (resizeScreen s r c).grid
        = s.grid.map (fitRow c) ++ List.replicate (r - s.rows) (blankRow c) := by
      show (s.grid.take r ++ List.replicate (r - s.grid.length) (blankRow c)).map
          (fitRow c) = _
      rw [List.take_of_length_le (by omega), List.map_append, List.map_replicate,
        fitRow_eq_self (blankRow c) c (by simp [blankRow]), hglen]
    have hlen1 : (resizeScreen s r c).grid.length = r := by
      rw [h1]
      simp [hglen]
      omega
    apply ScreenState.ext
    · rfl
    · rfl
    · show ((resizeScreen s r c).grid.take s.rows ++
        List.replicate (s.rows - (resizeScreen s r c).grid.length)
          (blankRow s.cols)).map (fitRow s.cols) = s.grid
      rw [hlen1]
      have h2 : s.rows - r = 0 := by omega
      rw [h2, h1, List.take_append_of_le_length (by simp [hglen]),
        ← List.map_take, List.take_of_length_le (by omega)]
      simp only [List.replicate_zero, List.append_nil, List.map_map]
      have hpt : ∀ row ∈ s.grid, (fitRow s.cols ∘ fitRow c) row = id row := by
        intro row hrow
        simp only [Function.comp_apply, id_eq]
        exact fitRow_round row s.cols c (hwf.rowLen row hrow) hc
      rw [List.map_congr_left hpt, List.map_id]
    · show min (min s.cursorRow (r - 1)) (s.rows - 1) = s.cursorRow
      omega
    · show min (min s.cursorCol (c - 1)) (s.cols - 1) = s.cursorCol
      omega
    · rfl
    · rfl
    · rfl
  · intro s r c
    rfl
  · intro s r c hrp hcp
    constructor
    · show min s.cursorRow (r - 1) < r
      omega
    · show min s.cursorCol (c - 1) < c
      omega

/-- Witness for C7: a 2×3 screen with text written, grown to 4×6 and shrunk
back, is restored exactly; the grown screen's cursor is in bounds and its
scrollback untouched. -/
theorem resize_round_trip_witness :
    resizeScreen (resizeScreen (feed (initScreen 2 3 5) ['H', 'i']) 4 6) 2 3
      = feed (initScreen 2 3 5) ['H', 'i'] ∧
    (resizeScreen (feed (initScreen 2 3 5) ['H', 'i']) 4 6).scrollback
      = (feed (initScreen 2 3 5) ['H', 'i']).scrollback ∧
    (resizeScreen (feed (initScreen 2 3 5) ['H', 'i']) 4 6).cursorRow < 4 := by
  have hwf : WF (feed (initScreen 2 3 5) ['H', 'i']) :=
    wf_feed (wf_initScreen 2 3 5 (by decide) (by decide)) ['H', 'i']
  exact ⟨resize_round_trip.1 _ 4 6 hwf (by decide) (by decide),
    resize_round_trip.2.1 _ 4 6,
    (resize_round_trip.2.2 _ 4 6 (by decide) (by decide)).1⟩

/-- One outcome of `self.pty_process.read()` in the reader loop: delivered
data, an empty read, or a raised exception. -/
inductive ReadResult where
  | data : String → ReadResult
  | empty : ReadResult
  | err : ReadResult
deriving DecidableEq, Repr

/-- The synthetic end-of-session notice (src/terminal.py:126). -/
def sessionEndedMsg : String := "\n[Session ended]\n"

/-- Embedded from `read_pty` (src/terminal.py:115-127): while running, each
read either delivers its data through `data_ready.emit` (the render path), or
is empty and skipped; a read that raises while running emits the synthetic
notice once and breaks out of the loop.  When not running the loop never
iterates.  The result lists the emitted deliveries in order. -/
def readPty (running : Bool) : List ReadResult → List String
  | [] => []
  | r :: rest =>
      if running then
        match r with
        | ReadResult.data s => s :: readPty running rest
        | ReadResult.empty => readPty running rest
        | ReadResult.err => [sessionEndedMsg]
      else []

/-- The data deliveries a list of successful reads produces. -/
def emitsOf (l : List ReadResult) : List String :=
  l.filterMap (fun r => match r with
    | ReadResult.data s => some s
    | _ => none)

/-- C9: Read failure is end-of-session, not fatal — when a read fails while the
session is running, the worker delivers exactly one synthetic "session ended"
notice after the data already delivered and stops: the remaining reads are
never consumed (the result does not depend on them).  When the session is no
longer running, nothing is delivered at all. -/
theorem read_failure_end_of_session (pre rest : List ReadResult)
    (hpre : ReadResult.err ∉ pre) :
    readPty true (pre ++ ReadResult.err :: rest) = emitsOf pre ++ [sessionEndedMsg]
    ∧ readPty false (pre ++ ReadResult.err :: rest) = [] := by
  constructor
  · induction pre with
    | nil => rfl
    | cons r pre ih =>
        rw [List.mem_cons, not_or] at hpre
        obtain ⟨hr, hpre⟩ := hpre
        cases r with
        | data s =>
            show s :: readPty true (pre ++ ReadResult.err :: rest) = _
            rw [ih hpre]
            rfl
        | empty =>
            show readPty true (pre ++ ReadResult.err :: rest) = _
            rw [ih hpre]
            rfl
        | err => exact absurd rfl hr
  · cases pre <;> rfl

/-- Witness for C9: two reads then a failure deliver the data and exactly one
notice, ignoring a read queued after the failure. -/
theorem read_failure_end_of_session_witness :
    readPty true [ReadResult.data "a", ReadResult.empty, ReadResult.err,
      ReadResult.data "b"] = ["a", sessionEndedMsg] := by
  have h := (read_failure_end_of_session [ReadResult.data "a", ReadResult.empty]
    [ReadResult.data "b"] (by decide)).1
  simpa [emitsOf] using h

/-- Embedded from `resizeEvent` (src/terminal.py:235-240): the geometry applied
on a resize — `cols = max(80, viewport_width // char_width)` and
`rows = max(24, viewport_height // char_height)` (non-negative integer
division, as in the source). -/
def computeResize (viewportWidth viewportHeight charWidth charHeight : Nat) :
    Nat × Nat :=
  (max 80 (viewportWidth / charWidth), max 24 (viewportHeight / charHeight))

/-- Embedded from src/terminal.py:243-244: the very same clamped pair goes to
the Process Channel as `set_size(cols, rows)` and to the Screen Model as
`screen.resize(rows, cols)`. -/
def resizeEventSizes (w h cw ch : Nat) : (Nat × Nat) × (Nat × Nat) :=
  (((computeResize w h cw ch).1, (computeResize w h cw ch).2),
   ((computeResize w h cw ch).2, (computeResize w h cw ch).1))

/-- C10: Implicit minimum grid size on resize — the column and row counts
applied to both the Process Channel and the Screen Model are clamped below to
80 columns and 24 rows for every requested geometry, and when the computed
geometry is at least the floor it is applied unchanged. -/
theorem resize_min_dims :
    (∀ w h cw ch, 80 ≤ (resizeEventSizes w h cw ch).1.1 ∧
        24 ≤ (resizeEventSizes w h cw ch).1.2 ∧
        24 ≤ (resizeEventSizes w h cw ch).2.1 ∧
        80 ≤ (resizeEventSizes w h cw ch).2.2)
    ∧ (∀ w h cw ch, 80 ≤ w / cw → (computeResize w h cw ch).1 = w / cw)
    ∧ (∀ w h cw ch, 24 ≤ h / ch → (computeResize w h cw ch).2 = h / ch) := by
  refine ⟨?_, ?_, ?_⟩
  · intro w h cw ch
    exact ⟨Nat.le_max_left _ _, Nat.le_max_left _ _, Nat.le_max_left _ _,
      Nat.le_max_left _ _⟩
  · intro w h cw ch hle
    exact Nat.max_eq_right hle
  · intro w h cw ch hle
    exact Nat.max_eq_right hle

/-- Witness for C10: a tiny 5×5 viewport still yields at least 80×24 on both
targets, and a 1000×480 viewport with 10×10 glyphs yields exactly 100×48. -/
theorem resize_min_dims_witness :
    80 ≤ (resizeEventSizes 5 5 2 2).1.1 ∧
    (computeResize 1000 480 10 10).1 = 100 ∧
    (computeResize 1000 480 10 10).2 = 48 :=
  ⟨(resize_min_dims.1 5 5 2 2).1,
    resize_min_dims.2.1 1000 480 10 10 (by decide),
    resize_min_dims.2.2 1000 480 10 10 (by decide)⟩
